import Mathlib

/-
  Verification development for the TestFlows-Asserts assertion-diagnostics
  library (src/testflows/asserts/asserts.py).

  The Python code is shallowly embedded: Python values become the inductive
  family `PyVal`, the assertion-expression AST fragment handled by
  `AssertEval` becomes `Expr`, and each method of the source is translated
  into an executable Lean function carrying the evaluator state explicitly.
  Container payloads use bespoke mutual inductives (`PyList`, `PyDict`,
  `ExprList`, `CmpPairs`) so that all recursion is structural.
-/

/- ## Python value universe -/

mutual

/-- Python values appearing in assertion expressions: ints, bools, strings,
the diffable containers, `None`, and references to `values` capture cells
(a `values` instance is itself a value; the reference indexes the cell's
stack held in the evaluator state). -/
inductive PyVal where
  | none : PyVal
  | bool : Bool → PyVal
  | int : Int → PyVal
  | str : String → PyVal
  | list : PyList → PyVal
  | tuple : PyList → PyVal
  | set : PyList → PyVal
  | dict : PyDict → PyVal
  | cell : Nat → PyVal
deriving DecidableEq, Repr

/-- Element lists of Python list/tuple/set values. -/
inductive PyList where
  | nil : PyList
  | cons : PyVal → PyList → PyList
deriving DecidableEq, Repr

/-- Key-value entry lists of Python dict values. -/
inductive PyDict where
  | nil : PyDict
  | cons : PyVal → PyVal → PyDict → PyDict
deriving DecidableEq, Repr

end

/-- Build a PyList from a Lean list. -/
def PyList.ofList : List PyVal → PyList
  | [] => .nil
  | v :: vs => .cons v (PyList.ofList vs)

mutual

/-- Python `==` on the modelled universe.  Numeric cross-type equality
(`True == 1`) is included; dict and set equality are the usual unordered
notions (mutual containment / key-wise lookup). -/
def pyEq : PyVal → PyVal → Bool
  | .none, .none => true
  | .bool a, .bool b => a == b
  | .bool a, .int b => (if a then (1 : Int) else 0) == b
  | .int a, .bool b => a == (if b then (1 : Int) else 0)
  | .int a, .int b => a == b
  | .str a, .str b => a == b
  | .list a, .list b => pyEqList a b
  | .tuple a, .tuple b => pyEqList a b
  | .set a, .set b => pySubset a b && pySubset b a
  | .dict a, .dict b => pyDictLe a b && pyDictLe b a
  | .cell a, .cell b => a == b
  | _, _ => false
termination_by a b => sizeOf a + sizeOf b

/-- Element-wise equality of list/tuple payloads. -/
def pyEqList : PyList → PyList → Bool
  | .nil, .nil => true
  | .cons a as, .cons b bs => pyEq a b && pyEqList as bs
  | _, _ => false
termination_by a b => sizeOf a + sizeOf b

/-- Every element of the first payload is a member of the second. -/
def pySubset : PyList → PyList → Bool
  | .nil, _ => true
  | .cons a as, b => pyMem a b && pySubset as b
termination_by a b => sizeOf a + sizeOf b

/-- Python `in` on list payloads (membership up to `==`). -/
def pyMem : PyVal → PyList → Bool
  | _, .nil => false
  | a, .cons b bs => pyEq a b || pyMem a bs
termination_by a b => sizeOf a + sizeOf b

/-- Every entry of the first dict maps, in the second, to an equal value. -/
def pyDictLe : PyDict → PyDict → Bool
  | .nil, _ => true
  | .cons k v as, b => pyDictHas k v b && pyDictLe as b
termination_by a b => sizeOf a + sizeOf b

/-- The dict has an entry with the given key mapping to an equal value. -/
def pyDictHas : PyVal → PyVal → PyDict → Bool
  | _, _, .nil => false
  | k, v, .cons k2 v2 bs => (pyEq k k2 && pyEq v v2) || pyDictHas k v bs
termination_by k v b => sizeOf k + sizeOf v + sizeOf b

end

/-- Python truthiness of the modelled values. -/
def pyTruthy : PyVal → Bool
  | .none => false
  | .bool b => b
  | .int n => n != 0
  | .str s => s != ""
  | .list .nil => false
  | .list _ => true
  | .tuple .nil => false
  | .tuple _ => true
  | .set .nil => false
  | .set _ => true
  | .dict .nil => false
  | .dict _ => true
  | .cell _ => true

/-- Numeric view used by arithmetic and ordering: ints and bools
(`True` counts as 1, `False` as 0), as in Python. -/
def pyNum : PyVal → Option Int
  | .int n => some n
  | .bool b => some (if b then 1 else 0)
  | _ => Option.none

mutual

/-- Python `repr` of the modelled values (string-escape details elided:
string reprs are the raw text in single quotes). -/
def pyRepr : PyVal → String
  | .none => "None"
  | .bool b => if b then "True" else "False"
  | .int n => toString n
  | .str s => "'" ++ s ++ "'"
  | .list l => "[" ++ pyReprList l ++ "]"
  | .tuple (.cons x .nil) => "(" ++ pyRepr x ++ ",)"
  | .tuple l => "(" ++ pyReprList l ++ ")"
  | .set .nil => "set()"
  | .set l => "\x7b" ++ pyReprList l ++ "\x7d"
  | .dict d => "\x7b" ++ pyReprDict d ++ "\x7d"
  | .cell i => "<values object " ++ toString i ++ ">"

/-- Comma-separated reprs of container elements. -/
def pyReprList : PyList → String
  | .nil => ""
  | .cons x .nil => pyRepr x
  | .cons x xs => pyRepr x ++ ", " ++ pyReprList xs

/-- Comma-separated `key: value` reprs of dict entries. -/
def pyReprDict : PyDict → String
  | .nil => ""
  | .cons k v .nil => pyRepr k ++ ": " ++ pyRepr v
  | .cons k v xs => pyRepr k ++ ": " ++ pyRepr v ++ ", " ++ pyReprDict xs

end

/- ## String helpers (modelling Python str methods over character lists,
so that everything reduces structurally) -/

/-- Characters treated as whitespace by the modelled `str.strip`/`lstrip`. -/
def pyIsSpace (c : Char) : Bool :=
  c == '\t' || c == '\n' || c == '\x0b' || c == '\x0c' || c == '\r' || c == ' '

/-- Python `str.lstrip()` (no arguments: strips whitespace). -/
def pyLstrip (s : String) : String :=
  ⟨s.data.dropWhile pyIsSpace⟩

/-- Python `str.strip()` (no arguments: strips whitespace on both ends). -/
def pyStrip (s : String) : String :=
  ⟨((s.data.dropWhile pyIsSpace).reverse.dropWhile pyIsSpace).reverse⟩

/-- Python `str.rstrip(cs)`: drop trailing characters belonging to `cs`. -/
def pyRstripChars (s : String) (cs : String) : String :=
  ⟨(s.data.reverse.dropWhile (fun c => cs.data.contains c)).reverse⟩

/-- Python slicing `s[:k]` (by character count). -/
def strTake (s : String) (k : Nat) : String :=
  ⟨s.data.take k⟩

/-- Python slicing `s[k:]` (by character count). -/
def strDrop (s : String) (k : Nat) : String :=
  ⟨s.data.drop k⟩

/-- Number of characters of a string (Python `len`). -/
def strLen (s : String) : Nat :=
  s.data.length

/-- Python `str.rfind(pat)`: index of the last occurrence of `pat` as a
substring, `-1` if there is none. -/
def strRfind (s pat : String) : Int :=
  let hay := s.data
  let idxs := (List.range (hay.length + 1)).filter
    (fun i => pat.data.isPrefixOf (hay.drop i))
  match idxs.getLast? with
  | some i => (i : Int)
  | _ => -1

/-- Split a character list on a separator character. -/
def splitOnChar (sep : Char) : List Char → List (List Char)
  | [] => [[]]
  | c :: rest =>
    let r := splitOnChar sep rest
    if c == sep then [] :: r
    else match r with
      | [] => [[c]]
      | g :: gs => (c :: g) :: gs

/-- Python `s.split("\n")`. -/
def strSplitNl (s : String) : List String :=
  (splitOnChar '\n' s.data).map (fun l => ⟨l⟩)

/-- Python `"\n".splitlines()`-style splitting: split on newlines, with a
trailing newline not producing a final empty piece, and the empty string
producing no pieces. -/
def pySplitlines (s : String) : List String :=
  if s == "" then []
  else
    let parts := strSplitNl s
    match parts.getLast? with
    | some "" => parts.dropLast
    | _ => parts

/-- Join strings with a separator (Python `sep.join(...)`). -/
def joinWith (sep : String) : List String → String
  | [] => ""
  | [x] => x
  | x :: xs => x ++ sep ++ joinWith sep xs

/-- A run of `n` spaces. -/
def spaces (n : Nat) : String :=
  ⟨List.replicate n ' '⟩

/-- Longest common prefix of two strings. -/
def commonPrefixChars : List Char → List Char → List Char
  | a :: as, b :: bs => if a == b then a :: commonPrefixChars as bs else []
  | _, _ => []

/-- Model of `textwrap.dedent`: whitespace-only lines are emptied, the
longest common leading space/tab run of the remaining lines is computed,
and that margin is removed from every line that starts with it. -/
def dedent (text : String) : String :=
  let lines := strSplitNl text
  let lines := lines.map (fun l =>
    if l != "" && l.data.all (fun c => c == ' ' || c == '\t') then "" else l)
  let indents := (lines.filter (fun l => pyStrip l != "")).map
    (fun l => (⟨l.data.takeWhile (fun c => c == ' ' || c == '\t')⟩ : String))
  let margin := match indents with
    | [] => ""
    | m :: rest => rest.foldl (fun a b => ⟨commonPrefixChars a.data b.data⟩) m
  joinWith "\n" (lines.map (fun l =>
    if margin != "" && margin.data.isPrefixOf l.data then strDrop l (strLen margin) else l))

/-- Model of `textwrap.indent(s, "  ")`: prepend two spaces to every line
that is not whitespace-only. -/
def indentTwo (s : String) : String :=
  joinWith "\n" ((strSplitNl s).map (fun l => if pyStrip l == "" then l else "  " ++ l))

/-- Model of `_saferepr` applied to an object whose `repr` is the given
string: `textwrap.indent(r, "  ").lstrip()`.  In the modelled universe a
`repr` never raises, so the error-placeholder fallback branch of the
source is unreachable. -/
def safereprStr (r : String) : String :=
  pyLstrip (indentTwo r)

/- ## Operator kinds and symbols (AssertEval._op_symbols) -/

/-- Boolean operator kinds (`ast.And`, `ast.Or`). -/
inductive BoolOpK where
  | and | or
deriving DecidableEq, Repr

/-- Binary operator kinds (`ast.Add` .. `ast.FloorDiv`). -/
inductive BinOpK where
  | add | sub | mult | div | mod | pow | lshift | rshift
  | bitOr | bitXor | bitAnd | floorDiv
deriving DecidableEq, Repr

/-- Comparison operator kinds (`ast.Eq` .. `ast.NotIn`). -/
inductive CmpOp where
  | eq | ne | lt | le | gt | ge | isId | isNotId | inMem | notInMem
deriving DecidableEq, Repr

/-- Textual symbol of a boolean operator, per `_op_symbols`. -/
def boolOpSymbol : BoolOpK → String
  | .and => "and"
  | .or => "or"

/-- Textual symbol of a binary operator, per `_op_symbols`. -/
def binOpSymbol : BinOpK → String
  | .add => "+"
  | .sub => "-"
  | .mult => "*"
  | .div => "/"
  | .mod => "%"
  | .pow => "**"
  | .lshift => "<<"
  | .rshift => ">>"
  | .bitOr => "|"
  | .bitXor => "^"
  | .bitAnd => "&"
  | .floorDiv => "//"

/-- Textual symbol of a comparison operator, per `_op_symbols`. -/
def cmpOpSymbol : CmpOp → String
  | .eq => "=="
  | .isId => "is"
  | .ne => "!="
  | .isNotId => "is not"
  | .lt => "<"
  | .inMem => "in"
  | .le => "<="
  | .notInMem => "not in"
  | .gt => ">"
  | .ge => ">="

/- ## Structural diff: model of the difflib machinery used by
`AssertEval._diff` (SequenceMatcher with no junk, `unified_diff` called
with `n=0` and `lineterm=""`). -/

/-- Opcode tags of difflib's SequenceMatcher. -/
inductive OpTag where
  | replace | delete | insert | equal
deriving DecidableEq, Repr

/-- A SequenceMatcher opcode `(tag, i1, i2, j1, j2)`. -/
structure Opcode where
  tag : OpTag
  i1 : Nat
  i2 : Nat
  j1 : Nat
  j2 : Nat
deriving DecidableEq, Repr

/-- Lookup in the `j2len` association list of `find_longest_match`. -/
def j2lenGet (m : List (Nat × Nat)) (j : Nat) : Nat :=
  match m.find? (fun p => p.1 == j) with
  | some p => p.2
  | _ => 0

/-- One row (fixed `i`) of `find_longest_match`'s dynamic program:
returns the new `j2len` list and the updated best block. -/
def flmRow (ai : String) (b : List String) (blo bhi : Nat)
    (j2len : List (Nat × Nat)) (i : Nat) (best : Nat × Nat × Nat) :
    List (Nat × Nat) × (Nat × Nat × Nat) :=
  ((List.range bhi).filter (fun j => blo ≤ j)).foldl
    (fun acc j =>
      if b.getD j "" == ai then
        let k := (if j == 0 then 0 else j2lenGet j2len (j - 1)) + 1
        let best2 := if k > acc.2.2.2 then (i + 1 - k, j + 1 - k, k) else acc.2
        ((j, k) :: acc.1, best2)
      else acc)
    ([], best)

/-- Model of `SequenceMatcher.find_longest_match` (no junk): the longest
block `(i, j, size)` matching in `a[alo:ahi]` and `b[blo:bhi]`, earliest
in `a` then in `b`. -/
def findLongestMatch (a b : List String) (alo ahi blo bhi : Nat) :
    Nat × Nat × Nat :=
  (((List.range ahi).filter (fun i => alo ≤ i)).foldl
    (fun (acc : List (Nat × Nat) × (Nat × Nat × Nat)) i =>
      flmRow (a.getD i "") b blo bhi acc.1 i acc.2)
    ([], (alo, blo, 0))).2

/-- Recursive block collection of `get_matching_blocks`.  The fuel bounds
the recursion depth: every recursive call strictly shrinks the interval
sum, so `a.length + b.length + 1` always suffices. -/
def matchingBlocksAux (a b : List String) :
    Nat → Nat → Nat → Nat → Nat → List (Nat × Nat × Nat)
  | 0, _, _, _, _ => []
  | Nat.succ fuel, alo, ahi, blo, bhi =>
    let m := findLongestMatch a b alo ahi blo bhi
    if m.2.2 > 0 then
      matchingBlocksAux a b fuel alo m.1 blo m.2.1
        ++ [m]
        ++ matchingBlocksAux a b fuel (m.1 + m.2.2) ahi (m.2.1 + m.2.2) bhi
    else []

/-- Model of `SequenceMatcher.get_matching_blocks` with the terminating
sentinel block.  (difflib's adjacent-block merge pass never fires when
there is no junk, so it is omitted.) -/
def getMatchingBlocks (a b : List String) : List (Nat × Nat × Nat) :=
  matchingBlocksAux a b (a.length + b.length + 1) 0 a.length 0 b.length
    ++ [(a.length, b.length, 0)]

/-- Model of `SequenceMatcher.get_opcodes`. -/
def getOpcodes (a b : List String) : List Opcode :=
  ((getMatchingBlocks a b).foldl
    (fun (st : Nat × Nat × List Opcode) blk =>
      let i := st.1
      let j := st.2.1
      let acc := st.2.2
      let ai := blk.1
      let bj := blk.2.1
      let k := blk.2.2
      let acc :=
        if i < ai && j < bj then acc ++ [⟨.replace, i, ai, j, bj⟩]
        else if i < ai then acc ++ [⟨.delete, i, ai, j, bj⟩]
        else if j < bj then acc ++ [⟨.insert, i, ai, j, bj⟩]
        else acc
      let acc := if k > 0 then acc ++ [⟨.equal, ai, ai + k, bj, bj + k⟩] else acc
      (ai + k, bj + k, acc))
    (0, 0, [])).2.2

/-- Model of `SequenceMatcher.get_grouped_opcodes n`: split opcodes into
groups at equal runs longer than `2*n`, truncating leading/trailing equal
context to `n` lines, and drop a trailing group that is a single equal
opcode. -/
def groupedOpcodes (n : Nat) (a b : List String) : List (List Opcode) :=
  let codes := getOpcodes a b
  let codes := if codes.isEmpty then [⟨OpTag.equal, 0, 1, 0, 1⟩] else codes
  let codes := match codes with
    | c :: rest =>
      if c.tag == OpTag.equal then
        { c with i1 := max c.i1 (c.i2 - n), j1 := max c.j1 (c.j2 - n) } :: rest
      else c :: rest
    | [] => []
  let codes := match codes.getLast? with
    | some c =>
      if c.tag == OpTag.equal then
        codes.dropLast ++ [{ c with i2 := min c.i2 (c.i1 + n), j2 := min c.j2 (c.j1 + n) }]
      else codes
    | _ => codes
  let nn := 2 * n
  let st := codes.foldl
    (fun (st : List (List Opcode) × List Opcode) c =>
      if c.tag == OpTag.equal && c.i2 - c.i1 > nn then
        (st.1 ++ [st.2 ++ [{ c with i2 := min c.i2 (c.i1 + n), j2 := min c.j2 (c.j1 + n) }]],
         [{ c with i1 := max c.i1 (c.i2 - n), j1 := max c.j1 (c.j2 - n) }])
      else (st.1, st.2 ++ [c]))
    ([], [])
  if !st.2.isEmpty
      && !(st.2.length == 1 && (st.2.headD ⟨OpTag.equal, 0, 0, 0, 0⟩).tag == OpTag.equal)
  then st.1 ++ [st.2] else st.1

/-- difflib's `_format_range_unified`. -/
def formatRangeUnified (start stop : Nat) : String :=
  let length := stop - start
  let beginning := start + 1
  if length == 1 then toString beginning
  else toString (if length == 0 then beginning - 1 else beginning) ++ "," ++ toString length

/-- Python slice `l[i1:i2]`. -/
def sliceList (l : List String) (i1 i2 : Nat) : List String :=
  (l.drop i1).take (i2 - i1)

/-- Body lines a single opcode contributes to a unified-diff hunk. -/
def opcodeLines (a b : List String) (c : Opcode) : List String :=
  match c.tag with
  | .equal => (sliceList a c.i1 c.i2).map (fun l => " " ++ l)
  | .replace => (sliceList a c.i1 c.i2).map (fun l => "-" ++ l)
      ++ (sliceList b c.j1 c.j2).map (fun l => "+" ++ l)
  | .delete => (sliceList a c.i1 c.i2).map (fun l => "-" ++ l)
  | .insert => (sliceList b c.j1 c.j2).map (fun l => "+" ++ l)

/-- Model of `difflib.unified_diff(a, b, n, lineterm="")` with empty file
names and dates: the two header lines (emitted only when at least one
group exists), then per group a `@@` hunk header and the hunk body. -/
def unifiedDiff (n : Nat) (a b : List String) : List String :=
  let groups := groupedOpcodes n a b
  if groups.isEmpty then []
  else
    ["--- ", "+++ "] ++ groups.foldl
      (fun acc group =>
        let first := group.headD ⟨OpTag.equal, 0, 0, 0, 0⟩
        let last := group.getLastD ⟨OpTag.equal, 0, 0, 0, 0⟩
        acc ++ ["@@ -" ++ formatRangeUnified first.i1 last.i2
                ++ " +" ++ formatRangeUnified first.j1 last.j2 ++ " @@"]
          ++ group.foldl (fun acc2 c => acc2 ++ opcodeLines a b c) [])
      []

/- ## AssertEval._diff -/

/-- Result wrapper content: `FuncResult` wraps either a plain result or a
`DiffResult` (a result with an attached diff string). -/
inductive DiffedVal where
  | plain (v : PyVal)
  | diffed (v : PyVal) (diff : String)
deriving DecidableEq, Repr

/-- The diffable kinds checked by `AssertEval._diff`'s isinstance test:
str, list, tuple, dict, set. -/
def isDiffType : PyVal → Bool
  | .str _ => true
  | .list _ => true
  | .tuple _ => true
  | .dict _ => true
  | .set _ => true
  | _ => false

/-- `isinstance(right, type(left))` for the modelled (exact) types. -/
def sameDiffKind : PyVal → PyVal → Bool
  | .str _, .str _ => true
  | .list _, .list _ => true
  | .tuple _, .tuple _ => true
  | .dict _, .dict _ => true
  | .set _, .set _ => true
  | _, _ => false

/-- `pprint.pformat` of the modelled values: every value concerned fits
within pprint's line width, so this is the repr on a single line. -/
def pformat (v : PyVal) : String := pyRepr v

/-- The printable line lists `_diff` feeds to the differ: a string operand
is splitlines'd directly, any other via its pretty-printed form. -/
def diffReprLines (v : PyVal) : List String :=
  match v with
  | .str s => pySplitlines s
  | _ => pySplitlines (pformat v)

/-- Model of `AssertEval._diff`: return the comparison result unchanged
unless the operator is `==`, the result is falsy, both operands are of
diffable kinds, and the right operand is an instance of the left's type;
in that case wrap the result together with the unified zero-context diff
of the printable forms, with its two-line header stripped. -/
def pyDiff (op : CmpOp) (result : PyVal) (l r : PyVal) : DiffedVal :=
  if op != CmpOp.eq || pyTruthy result then .plain result
  else if isDiffType l && isDiffType r && sameDiffKind l r then
    .diffed result
      (joinWith "\n" ((unifiedDiff 0 (diffReprLines l) (diffReprLines r)).drop 2))
  else .plain result

/- ## Assertion-expression AST (the fragment of the Python ast grammar
handled by the modelled visitors) -/

/-- A source position: 1-based line number and 0-based column offset.
Real AST nodes carry non-negative columns; derived operator positions may
carry `-1` (symbol not found). -/
structure Pos where
  lineno : Nat
  colOffset : Int
deriving DecidableEq, Repr

mutual

/-- Expression nodes.  Operand lists use the mutual inductives `ExprList`
and `CmpPairs` (a `compare` node pairs each operator with its
comparator, like `zip(node.ops, node.comparators)`). -/
inductive Expr where
  | num (n : Int) (pos : Pos)
  | strLit (s : String) (pos : Pos)
  | name (id : String) (pos : Pos)
  | binop (left : Expr) (op : BinOpK) (right : Expr) (pos : Pos)
  | boolop (op : BoolOpK) (first : Expr) (rest : ExprList) (pos : Pos)
  | compare (left : Expr) (pairs : CmpPairs) (pos : Pos)
  | call (funcId : String) (args : ExprList) (pos : Pos)
deriving Repr

/-- Operand lists of boolean operators and calls. -/
inductive ExprList where
  | nil
  | cons (e : Expr) (rest : ExprList)
deriving Repr

/-- The `(operator, comparator)` chain of a comparison node. -/
inductive CmpPairs where
  | nil
  | cons (op : CmpOp) (comparator : Expr) (rest : CmpPairs)
deriving Repr

end

/-- Source position of an expression node. -/
def exprPos : Expr → Pos
  | .num _ p => p
  | .strLit _ p => p
  | .name _ p => p
  | .binop _ _ _ p => p
  | .boolop _ _ _ p => p
  | .compare _ _ p => p
  | .call _ _ p => p

/-- Membership in `AssertEval._simple`.  The source tuple lists Num, Str,
NameConstant, Attribute, Call, BinOp, UnaryOp, IfExp, BoolOp, List,
Tuple, Set, Dict, Starred and Compare; `ast.Name` is absent, so of the
modelled constructors exactly `name` is non-simple (and hence gets its
value recorded by the visitors). -/
def isSimple : Expr → Bool
  | .name _ _ => false
  | _ => true

/- ## Operator-position lookup (AssertEval._find_operator) -/

/-- The line slice `_find_operator` prepares: the expression lines up to
`lineno`, the last one cut at `col_offset + 1` and stripped of trailing
opening brackets.  (The evaluator only calls this after a successful
parse, so the expression line list is never empty.) -/
def findOperatorLines (expression : List String) (lineno : Nat) (col : Int) : List String :=
  let ls := expression.take lineno
  let lastIdx := ls.length - 1
  ls.set lastIdx (pyRstripChars (strTake (ls.getD lastIdx "") (col + 1).toNat) "(\x7b[")

/-- The reverse scan of `_find_operator`: lines are examined from last to
first and the first whose `rfind` of the symbol succeeds gives the
answer; if none matches, the loop ends on line 1 with `rfind = -1`,
yielding `(1, -1)`. -/
def findOpScan (opSym : String) : List (Nat × String) → Nat × Int
  | [] => (1, -1)
  | (n, line) :: rest =>
    let idx := strRfind line opSym
    if idx ≥ 0 then (n, idx) else findOpScan opSym rest

/-- Python `enumerate(lines, 1)`. -/
def enumerate1 (ls : List String) : List (Nat × String) :=
  ((List.range ls.length).zip ls).map (fun p => (p.1 + 1, p.2))

/-- Model of `AssertEval._find_operator`, taking the operator's textual
symbol (the `_op_symbols` lookup; every modelled operator has one, so the
unknown-operator RuntimeError branch is unreachable). -/
def find_operator (expression : List String) (opSym : String) (lineno : Nat) (col : Int) : Nat × Int :=
  findOpScan opSym (enumerate1 (findOperatorLines expression lineno col)).reverse

/- ## Evaluator state and dispatch tables -/

/-- An Evaluation Record's value part: either a raw sub-expression value
or a `FuncResult` wrapper. -/
inductive Recorded where
  | val (v : PyVal)
  | funcResult (r : DiffedVal)
deriving DecidableEq, Repr

/-- Evaluation context: the captured Expression Text and the caller's
bindings (`f_locals` snapshot and `f_globals`). -/
structure EvalCtx where
  expression : List String
  locals : List (String × PyVal)
  globals : List (String × PyVal)
deriving Repr

/-- Mutable evaluator state: the Evaluation Record list (`self.nodes`) and
the stacks of the `values` capture cells (indexed by cell id). -/
structure EvalSt where
  nodes : List (Recorded × Pos)
  cells : List (List PyVal)
deriving DecidableEq, Repr

/-- Exceptions evaluation can raise during replay. -/
inductive EvalErr where
  | nameErr (id : String)
  | attrErr (id : String)
  | typeErr
deriving DecidableEq, Repr

/-- Name lookup of `generic_visit`'s combined scope: a copy of the globals
updated with the locals, so locals win; a missing name is a NameError. -/
def lookupScope (ctx : EvalCtx) (id : String) : Option PyVal :=
  match ctx.locals.find? (fun p => p.1 == id) with
  | some p => some p.2
  | _ =>
    match ctx.globals.find? (fun p => p.1 == id) with
    | some p => some p.2
    | _ => Option.none

/-- Callee resolution of `visit_Call` for a `Name` callee: the id is a
string (never `callable`), so lookup goes locals, then globals, then
`getattr(builtins, name)` — which raises AttributeError when the name is
no builtin, making the source's NameError branch unreachable.  Built-in
functions are outside the modelled universe. -/
def lookupCallable (ctx : EvalCtx) (id : String) : Except EvalErr PyVal :=
  match ctx.locals.find? (fun p => p.1 == id) with
  | some p => .ok p.2
  | _ =>
    match ctx.globals.find? (fun p => p.1 == id) with
    | some p => .ok p.2
    | _ => .error (.attrErr id)

/-- The `_boolean_ops` table: `and`/`or` on already-computed operand
values (both operands are evaluated before this is applied). -/
def pyBoolApply (op : BoolOpK) (l r : PyVal) : PyVal :=
  match op with
  | .and => if pyTruthy l then r else l
  | .or => if pyTruthy l then l else r

/-- The `_binary_ops` table on the modelled universe: integer (and bool)
arithmetic with Python's floor division and modulo, string
concatenation.  True division, `**` and the bitwise operators need value
kinds outside the model (floats, machine ints) and raise here; no
verified claim uses them. -/
def pyBinApply (op : BinOpK) (l r : PyVal) : Except EvalErr PyVal :=
  match pyNum l, pyNum r with
  | some a, some b =>
    (match op with
     | .add => .ok (.int (a + b))
     | .sub => .ok (.int (a - b))
     | .mult => .ok (.int (a * b))
     | .mod => .ok (.int (Int.fmod a b))
     | .floorDiv => .ok (.int (Int.fdiv a b))
     | .lshift => .ok (.int (a * (2 : Int) ^ b.toNat))
     | .rshift => .ok (.int (Int.fdiv a ((2 : Int) ^ b.toNat)))
     | _ => .error .typeErr)
  | _, _ =>
    match op, l, r with
    | .add, .str x, .str y => .ok (.str (x ++ y))
    | _, _, _ => .error .typeErr

/-- Python membership (`in`) test used by the comparison table. -/
def pyMemTest (l r : PyVal) : Except EvalErr Bool :=
  match r with
  | .list xs => .ok (pyMem l xs)
  | .tuple xs => .ok (pyMem l xs)
  | .set xs => .ok (pyMem l xs)
  | .dict d => .ok (pyDictHasKey l d)
  | .str s =>
    (match l with
     | .str sub => .ok (strRfind s sub ≥ 0)
     | _ => .error .typeErr)
  | _ => .error .typeErr
where
  pyDictHasKey (k : PyVal) : PyDict → Bool
    | .nil => false
    | .cons k2 _ rest => pyEq k k2 || pyDictHasKey k rest

/-- Ordering comparisons on the numeric view. -/
def pyOrdApply (op : CmpOp) (a b : Int) : Bool :=
  match op with
  | .lt => decide (a < b)
  | .le => decide (a ≤ b)
  | .gt => decide (a > b)
  | .ge => decide (a ≥ b)
  | _ => false

/-- The `_compare_ops` table on the modelled universe.  `is` is modelled
as structural identity; ordering works on numbers (with bools as 0/1)
and on strings; mixed-kind ordering raises TypeError as in Python. -/
def pyCmpApply (op : CmpOp) (l r : PyVal) : Except EvalErr PyVal :=
  match op with
  | .eq => .ok (.bool (pyEq l r))
  | .ne => .ok (.bool (!pyEq l r))
  | .isId => .ok (.bool (decide (l = r)))
  | .isNotId => .ok (.bool (!decide (l = r)))
  | .inMem => do
    let b ← pyMemTest l r
    .ok (.bool b)
  | .notInMem => do
    let b ← pyMemTest l r
    .ok (.bool (!b))
  | _ =>
    match pyNum l, pyNum r with
    | some a, some b => .ok (.bool (pyOrdApply op a b))
    | _, _ =>
      match l, r with
      | .str x, .str y =>
        .ok (.bool (match op with
          | .lt => decide (x < y)
          | .le => decide (x ≤ y)
          | .gt => decide (x > y)
          | .ge => decide (x ≥ y)
          | _ => false))
      | _, _ => .error .typeErr

/- ## The tree walker (AssertEval.visit_*) -/

mutual

/-- Model of `AssertEval.visit` on the modelled constructors.  Numbers,
strings and names carry no dedicated visitor in the source and fall to
`generic_visit`, which evaluates them against the combined
globals+locals scope (locals winning); an undefined name raises
NameError.  `visit_Call` resolves the callee and, when the callee is a
`values` capture cell, bypasses argument evaluation entirely and pops
the next captured value (or yields `None` when the stack is exhausted),
recording it as the call's result; for any other callee the positional
arguments are evaluated and recorded and the application of a
non-callable modelled value raises TypeError. -/
def visit (ctx : EvalCtx) : Expr → EvalSt → Except EvalErr (PyVal × EvalSt)
  | .num n _, st => .ok (.int n, st)
  | .strLit s _, st => .ok (.str s, st)
  | .name id _, st =>
    (match lookupScope ctx id with
     | some v => .ok (v, st)
     | _ => .error (.nameErr id))
  | .binop left op right _, st => do
    let (lv, st) ← visit ctx left st
    let st := if !isSimple left then
        { st with nodes := st.nodes ++ [(.val lv, exprPos left)] } else st
    let (rv, st) ← visit ctx right st
    let st := if !isSimple right then
        { st with nodes := st.nodes ++ [(.val rv, exprPos right)] } else st
    let res ← pyBinApply op lv rv
    let p := find_operator ctx.expression (binOpSymbol op)
      (exprPos right).lineno (exprPos right).colOffset
    .ok (res, { st with nodes := st.nodes ++ [(.funcResult (.plain res), ⟨p.1, p.2⟩)] })
  | .boolop op first rest _, st => do
    let (left, st) ← visit ctx first st
    let st := if !isSimple first then
        { st with nodes := st.nodes ++ [(.val left, exprPos first)] } else st
    visitBoolRest ctx op left rest st
  | .compare left pairs _, st => do
    let (lv, st) ← visit ctx left st
    let st := if !isSimple left then
        { st with nodes := st.nodes ++ [(.val lv, exprPos left)] } else st
    visitComparePairs ctx lv pairs st
  | .call funcId args pos, st => do
    let func ← lookupCallable ctx funcId
    match func with
    | .cell cid =>
      let stack := st.cells.getD cid []
      let popped := match stack with
        | x :: restStack => (x, st.cells.set cid restStack)
        | [] => (PyVal.none, st.cells)
      .ok (popped.1, { st with
        nodes := st.nodes ++ [(.funcResult (.plain popped.1), pos)],
        cells := popped.2 })
    | _ => do
      let (_, st) ← visitArgs ctx args st
      let _ := st
      .error .typeErr

/-- The operand loop of `visit_BoolOp`: every further operand is visited
eagerly (no short-circuit), its value recorded when non-trivial, the
running result recorded wrapped at the located operator position, and
the result threaded as the next left input.  A BoolOp node always has at
least two operands; on the impossible empty tail the source would hit an
unbound local, modelled as TypeError. -/
def visitBoolRest (ctx : EvalCtx) (op : BoolOpK) (left : PyVal) :
    ExprList → EvalSt → Except EvalErr (PyVal × EvalSt)
  | .nil, _ => .error .typeErr
  | .cons v rest, st => do
    let (right, st) ← visit ctx v st
    let st := if !isSimple v then
        { st with nodes := st.nodes ++ [(.val right, exprPos v)] } else st
    let result := pyBoolApply op left right
    let p := find_operator ctx.expression (boolOpSymbol op)
      (exprPos v).lineno (exprPos v).colOffset
    let st := { st with nodes := st.nodes ++ [(.funcResult (.plain result), ⟨p.1, p.2⟩)] }
    match rest with
    | .nil => .ok (result, st)
    | _ => visitBoolRest ctx op result rest st

/-- The pair loop of `visit_Compare`: the running result is the left input
of the next pairwise comparison (`left = result` in the source), the
comparator value is recorded when non-trivial, and the wrapped (possibly
diff-carrying) result is recorded at the located operator position. -/
def visitComparePairs (ctx : EvalCtx) (result : PyVal) :
    CmpPairs → EvalSt → Except EvalErr (PyVal × EvalSt)
  | .nil, st => .ok (result, st)
  | .cons op comparator rest, st => do
    let (right, st) ← visit ctx comparator st
    let left := result
    let res ← pyCmpApply op left right
    let st := if !isSimple comparator then
        { st with nodes := st.nodes ++ [(.val right, exprPos comparator)] } else st
    let p := find_operator ctx.expression (cmpOpSymbol op)
      (exprPos comparator).lineno (exprPos comparator).colOffset
    let st := { st with nodes :=
      st.nodes ++ [(.funcResult (pyDiff op res left right), ⟨p.1, p.2⟩)] }
    visitComparePairs ctx res rest st

/-- The positional-argument loop of `visit_Call` (starred and keyword
arguments are not modelled; no verified claim uses them). -/
def visitArgs (ctx : EvalCtx) : ExprList → EvalSt → Except EvalErr (List PyVal × EvalSt)
  | .nil, st => .ok ([], st)
  | .cons a rest, st => do
    let (v, st) ← visit ctx a st
    let st := if !isSimple a then
        { st with nodes := st.nodes ++ [(.val v, exprPos a)] } else st
    let (vs, st) ← visitArgs ctx rest st
    .ok (v :: vs, st)

end

/-- The statement shape the evaluator handles: `visit_Module` dispatches
to `body[0]` and `visit_Assert` evaluates the test, coerces it with
`bool(...)` and appends the final record at the assert node's own
position.  (The `visit_Expr` entry used by the explicit `error()` path
is not modelled.) -/
inductive Stmt where
  | assertStmt (test : Expr) (pos : Pos)
deriving Repr

/-- Model of `visit_Assert` (reached via `visit_Module`). -/
def visitAssert (ctx : EvalCtx) : Stmt → EvalSt → Except EvalErr (Bool × EvalSt)
  | .assertStmt test pos, st => do
    let (v, st) ← visit ctx test st
    let result := pyTruthy v
    .ok (result, { st with nodes := st.nodes ++ [(.val (.bool result), pos)] })

/-- Model of `values.__call__`: push the passed value on the cell's stack
and return it untouched. -/
def valuesCall (stack : List PyVal) (x : PyVal) : List PyVal × PyVal :=
  (stack ++ [x], x)

deriving instance DecidableEq for Except

/- ## Diagnostic report renderer (class error) -/

/-- `repr` of a `FuncResult`'s payload: a plain value reprs directly; a
`DiffResult` reprs as `_saferepr(result) + "\n" + diff`. -/
def diffedReprStr : DiffedVal → String
  | .plain v => pyRepr v
  | .diffed v d => safereprStr (pyRepr v) ++ "\n" ++ d

/-- `repr` of an Evaluation Record's value: a raw recorded value reprs as
itself; a `FuncResult` reprs as `"= " + _saferepr(self.result)`. -/
def recordedReprStr : Recorded → String
  | .val v => pyRepr v
  | .funcResult r => "= " ++ safereprStr (diffedReprStr r)

/-- `_saferepr` applied to an Evaluation Record's value object. -/
def saferepr (r : Recorded) : String :=
  safereprStr (recordedReprStr r)

/-- The state of an `error` object: description, Expression Text (absent
when no code context was available), Evaluation Records, the frame's
file/line/function identity, whether `frame_info.code_context` is
present, the source file's lines (with their trailing newlines, as
`linecache.getline` returns them), and the four section toggles. -/
structure ErrCtx where
  desc : Option String
  expression : Option (List String)
  nodes : List (Recorded × Pos)
  filename : String
  lineno : Nat
  function : String
  codeContext : Bool
  fileLines : List String
  expressionSectionOn : Bool := true
  descriptionSectionOn : Bool := true
  valuesSectionOn : Bool := true
  whereSectionOn : Bool := true
deriving DecidableEq, Repr

/-- Model of `error.generate_expression_section`. -/
def generate_expression_section (e : ErrCtx) : String :=
  match e.expression with
  | some ls =>
    if e.expressionSectionOn && !ls.isEmpty then
      "\n\nThe following assertion was not satisfied"
        ++ ls.foldl (fun acc l => acc ++ "\n  " ++ l) ""
    else ""
  | _ => ""

/-- `desc[0].capitalize() + desc[1:]` (guarded by truthiness, so the
empty-string index error is unreachable). -/
def capitalizeFirst (s : String) : String :=
  match s.data with
  | [] => ""
  | c :: rest => ⟨c.toUpper :: rest⟩

/-- Model of `error.generate_description_section`. -/
def generate_description_section (e : ErrCtx) : String :=
  match e.desc with
  | some d =>
    if e.descriptionSectionOn && d != "" then
      "\n\nDescription\n  " ++ capitalizeFirst d
    else ""
  | _ => ""

/-- One Evaluation Record's contribution to the Values section: the inner
loop of `generate_values_section` reprints EVERY Expression Text line
and, right after the line whose 1-based number equals the record's line,
emits the caret line — spaces up to the column offset (or up to the
line's natural indentation when the offset is negative), a caret, and
`"is "` plus the safe representation of the value. -/
def valuesRecordBlock (expression : List String) (r : Recorded) (p : Pos) : String :=
  (enumerate1 expression).foldl
    (fun acc il =>
      let acc := acc ++ "\n  " ++ il.2
      if p.lineno == il.1 then
        let col := if p.colOffset < 0
          then ((strLen il.2 : Int) - (strLen (pyLstrip il.2) : Int))
          else p.colOffset
        acc ++ "\n  " ++ spaces col.toNat ++ "^ is " ++ saferepr r
      else acc)
    ""

/-- Model of `error.generate_values_section` (emitted only when the record
list is truthy; when records exist the Expression Text is present). -/
def generate_values_section (e : ErrCtx) : String :=
  if e.valuesSectionOn && !e.nodes.isEmpty then
    "\n\nAssertion values"
      ++ e.nodes.foldl (fun acc rp => acc ++ valuesRecordBlock (e.expression.getD []) rp.1 rp.2) ""
  else ""

/-- `linecache.getline` over the file's line list (1-based; empty string
out of range). -/
def getline (fileLines : List String) (n : Nat) : String :=
  fileLines.getD (n - 1) ""

/-- `"%Nd" % n`: right-justify in a field of the given width. -/
def rightJustify (s : String) (w : Nat) : String :=
  spaces (w - strLen s) ++ s

/-- Model of `error.code_block`: lines `max(lineno-before, 1)` up to
`lineno+after-1`, stopping at the first empty line after the first,
each formatted `"%Nd|  %s"`; on the failure line the first `"|  "` is
replaced by `"|> "` (the number part never contains `"|  "`, so the
`split`/`join` in the source is exactly this replacement). -/
def code_block (fileLines : List String) (lineno before after : Nat) : List String :=
  let minN := max (lineno - before) 1
  let maxN := lineno + after
  let width := strLen (toString maxN)
  ((List.range' minN (maxN - minN)).foldl
    (fun (st : Bool × List String) n =>
      if st.1 then st
      else
        let line := getline fileLines n
        if n > minN && strLen line == 0 then (true, st.2)
        else
          let numStr := rightJustify (toString n) width
          let pl := if n == lineno then numStr ++ "|> " ++ line else numStr ++ "|  " ++ line
          (st.1, st.2 ++ [pl]))
    (false, [])).2

/-- Model of `error.generate_where_section`. -/
def generate_where_section (e : ErrCtx) : String :=
  if e.whereSectionOn && e.codeContext then
    "\n\nWhere"
      ++ "\n  File '" ++ e.filename ++ "', line " ++ toString e.lineno
      ++ " in '" ++ e.function ++ "'"
      ++ "\n\n" ++ String.join (code_block e.fileLines e.lineno 8 4)
  else ""

/-- Model of `error.generate_message`: fixed section order
expression → description → values → where after the header. -/
def generate_message (e : ErrCtx) : String :=
  "Oops! Assertion failed"
    ++ generate_expression_section e
    ++ generate_description_section e
    ++ generate_values_section e
    ++ generate_where_section e

/- ## Source locator (AssertEval.eval) -/

/-- The backward scan of `AssertEval.eval`: iteration `i` (counting down
from `lineno - startline + 1`) prepends `sourcelines[i-1]` to the
accumulated text, stores the dedented and stripped text in
`self.expression`, and tries `ast.parse` (modelled by the `parse`
oracle); the first success breaks the loop, and when every attempt
fails the last attempted text (the full span) remains. -/
def locateLoop (parse : String → Option Stmt) (sourcelines : List String) :
    Nat → String → String → String × Option Stmt
  | 0, _, lastText => (lastText, Option.none)
  | Nat.succ i, acc, _ =>
    let acc := sourcelines.getD i "" ++ acc
    let text := pyStrip (dedent acc)
    match parse text with
    | some s => (text, some s)
    | _ => locateLoop parse sourcelines i acc text

/-- Model of `AssertEval.eval` followed by the visit, for a frame whose
`code_context` is available: locate the statement, split the located
(or, on total failure, the last attempted) text into the Expression
Text lines, and run the visitor only when some span parsed.  Evaluation
errors during replay propagate out. -/
def assertEvalRun (parse : String → Option Stmt) (locals globals : List (String × PyVal))
    (cells : List (List PyVal)) (sourcelines : List String) (startline lineno : Nat) :
    Except EvalErr (List String × List (Recorded × Pos)) :=
  let k := lineno - startline + 1
  let r := locateLoop parse sourcelines k "" ""
  let exprLines := strSplitNl r.1
  match r.2 with
  | some s => do
    let (_, st) ← visitAssert { expression := exprLines, locals := locals, globals := globals } s
      { nodes := [], cells := cells }
    .ok (exprLines, st.nodes)
  | _ => .ok (exprLines, [])

/-- Model of constructing an `error` in the normal path (`nodes is None`):
run the evaluator, then generate the message over the resulting state.
The frame's identity and the source file's lines are explicit inputs
(the source reads them from the frame and linecache). -/
def errorGenerate (parse : String → Option Stmt) (locals globals : List (String × PyVal))
    (cells : List (List PyVal)) (sourcelines : List String) (startline lineno : Nat)
    (desc : Option String) (filename functionName : String) (codeContext : Bool)
    (fileLines : List String) : Except EvalErr String := do
  let (exprLines, nodes) ← assertEvalRun parse locals globals cells sourcelines startline lineno
  .ok (generate_message
    { desc := desc, expression := some exprLines, nodes := nodes,
      filename := filename, lineno := lineno, function := functionName,
      codeContext := codeContext, fileLines := fileLines })

/- ## Soft-error collector (classes errors and errors.softerror) -/

/-- An exception argument: a wrapped diagnostic or a plain message. -/
inductive ExcArg where
  | errObj (e : ErrCtx)
  | strMsg (s : String)
deriving DecidableEq, Repr

/-- The exceptions the collector logic distinguishes: AssertionErrors
(with their argument tuple) and everything else. -/
inductive PyException where
  | assertionError (args : List ExcArg)
  | otherException
deriving DecidableEq, Repr

/-- `str(...)` of an exception argument. -/
def excArgStr : ExcArg → String
  | .errObj e => generate_message e
  | .strMsg s => s

/-- `str(exc_val)` of an AssertionError: the sole argument's string for a
1-tuple, a tuple rendering otherwise. -/
def excStr : List ExcArg → String
  | [] => ""
  | [a] => excArgStr a
  | args => "(" ++ joinWith ", " (args.map excArgStr) ++ ")"

/-- Model of `errors.softerror.__exit__`.  `mk` models
`error(desc=desc, frame=frame, frame_info=frame_info)` — the diagnostic
constructed against the current frame.  Returns the updated collected
list and whether the exception is suppressed (a truthy return).  An
AssertionError whose first argument is already an `error` makes the
method return `None` before wrapping: nothing is appended and the
exception propagates; any non-assertion exception (or no exception)
likewise falls through with nothing appended and no suppression. -/
def softerrorExit (mk : Option String → ErrCtx) (errs : List PyException)
    (excVal : Option PyException) : List PyException × Bool :=
  match excVal with
  | some (.assertionError args) =>
    (match args with
     | .errObj _ :: _ => (errs, false)
     | _ =>
       let desc := if args.isEmpty then Option.none else some (excStr args)
       (errs ++ [PyException.assertionError [.errObj (mk desc)]], true))
  | _ => (errs, false)

/-- The `errors` collector: the collected exceptions and the section
toggles it forwards to each diagnostic when rendering. -/
structure Collector where
  errors : List PyException
  expressionSectionOn : Bool := true
  descriptionSectionOn : Bool := true
  valuesSectionOn : Bool := true
  whereSectionOn : Bool := true
deriving DecidableEq, Repr

/-- What `errors.__exit__` does to control flow: exit silently, let the
(possibly wrapped) incoming exception propagate (a falsy return), or
raise the single aggregate `AssertionError(self)` whose message is
`errorsStr` of the resulting collector. -/
inductive ExitEffect where
  | silent
  | propagate
  | raiseAggregate
deriving DecidableEq, Repr

/-- Model of `errors.__str__`: regenerate every collected diagnostic's
message with the collector's section toggles and join them, in
collection order, with the aggregate separator.  (The collected list
only ever holds wrapped assertion errors; the fallback arm stands for
the otherwise-crashing attribute access and is unreachable.) -/
def errorsStr (c : Collector) : String :=
  joinWith "\n\nas well as the following assertion\n\n"
    (c.errors.map (fun ex =>
      match ex with
      | .assertionError (.errObj e :: _) =>
        generate_message { e with
          expressionSectionOn := c.expressionSectionOn,
          descriptionSectionOn := c.descriptionSectionOn,
          valuesSectionOn := c.valuesSectionOn,
          whereSectionOn := c.whereSectionOn }
      | _ => ""))

/-- Model of `errors.__exit__`.  An escaping AssertionError already
carrying an `error` triggers the early `return`, skipping both the
append and the final aggregate raise; an unwrapped AssertionError is
wrapped and appended only when the collected list is non-empty, after
which the aggregate is raised when the list is non-empty (otherwise the
wrapped exception itself propagates).  Any other escaping exception
returns early — the final `if self.errors: raise` is skipped, so
already-collected soft failures are dropped.  With no exception, the
aggregate is raised exactly when something was collected. -/
def errorsExit (mk : Option String → ErrCtx) (c : Collector)
    (excVal : Option PyException) : Collector × ExitEffect :=
  match excVal with
  | some (.assertionError args) =>
    (match args with
     | .errObj _ :: _ => (c, .propagate)
     | _ =>
       let desc := if args.isEmpty then Option.none else some (excStr args)
       let wrapped := PyException.assertionError [.errObj (mk desc)]
       let c := if !c.errors.isEmpty then { c with errors := c.errors ++ [wrapped] } else c
       if !c.errors.isEmpty then (c, .raiseAggregate) else (c, .propagate))
  | some .otherException => (c, .propagate)
  | Option.none =>
    if !c.errors.isEmpty then (c, .raiseAggregate) else (c, .silent)

/- ## Concrete instances used by the verification theorems -/

/-- Evaluation context for the chained comparison `3 > 2 > 1`. -/
def c1ctx : EvalCtx := { expression := ["3 > 2 > 1"], locals := [], globals := [] }

/-- AST of `3 > 2 > 1` with its source positions. -/
def c1expr : Expr :=
  .compare (.num 3 ⟨1, 0⟩)
    (.cons .gt (.num 2 ⟨1, 4⟩) (.cons .gt (.num 1 ⟨1, 8⟩) .nil)) ⟨1, 0⟩

/-- Chained-comparison semantics as claim C1 (and spec §4.2) describes it:
each pairwise comparison takes the previous COMPARATOR's value as its
left input and the pairwise results are ANDed.  Stated over already
computed operand values; written from the claim's words, to be compared
against the evaluator's fold. -/
def compareClaimSemantics : PyVal → List (CmpOp × PyVal) → Except EvalErr Bool
  | _, [] => .ok true
  | l, (op, r) :: rest => do
    let b ← pyCmpApply op l r
    let restB ← compareClaimSemantics r rest
    .ok (pyTruthy b && restB)

/-- Evaluation context for `assert 1 and 0`. -/
def c2ctx : EvalCtx := { expression := ["assert 1 and 0"], locals := [], globals := [] }

/-- AST of `assert 1 and 0` with its source positions. -/
def c2stmt : Stmt :=
  .assertStmt (.boolop .and (.num 1 ⟨1, 7⟩) (.cons (.num 0 ⟨1, 13⟩) .nil) ⟨1, 7⟩) ⟨1, 0⟩

/-- A small concrete diagnostic used by the collector examples. -/
def sampleErr : ErrCtx :=
  { desc := some "boo", expression := some ["assert x"],
    nodes := [], filename := "t.py", lineno := 3, function := "f",
    codeContext := false, fileLines := [] }

/-- An AssertionError already wrapped into a diagnostic. -/
def sampleWrapped : PyException := .assertionError [.errObj sampleErr]

/-- The Values-section renderer as claim C5 describes it: for every
record, reprint ONLY the Expression Text line containing the record's
position, then the caret line.  Written from the claim's words, to be
compared against the code's renderer (which reprints every line). -/
def values_section_claimed (e : ErrCtx) : String :=
  if e.valuesSectionOn && !e.nodes.isEmpty then
    "\n\nAssertion values"
      ++ e.nodes.foldl (fun acc rp =>
          (enumerate1 (e.expression.getD [])).foldl (fun acc2 il =>
            if rp.2.lineno == il.1 then
              let col := if rp.2.colOffset < 0
                then ((strLen il.2 : Int) - (strLen (pyLstrip il.2) : Int))
                else rp.2.colOffset
              acc2 ++ "\n  " ++ il.2 ++ "\n  " ++ spaces col.toNat ++ "^ is " ++ saferepr rp.1
            else acc2) acc) ""
  else ""

/-- An `ErrCtx` exhibiting the multi-line Values-section behaviour: a
two-line expression with a single record on line 1. -/
def c5err : ErrCtx :=
  { desc := Option.none, expression := some ["a", "b"],
    nodes := [(.val (.int 5), ⟨1, 0⟩)], filename := "t.py", lineno := 1,
    function := "f", codeContext := false, fileLines := [] }

/-- Evaluation context holding an exhausted Value Capture Cell named
`that`. -/
def c6ctx : EvalCtx :=
  { expression := ["that()"], locals := [("that", .cell 0)], globals := [] }

/-- Evaluation context for the replay of `that(x) == that(y)`. -/
def c7ctx : EvalCtx :=
  { expression := ["that(x) == that(y)"], locals := [("that", .cell 0)], globals := [] }

/-- AST of `that(x) == that(y)` with its source positions. -/
def c7expr : Expr :=
  .compare (.call "that" (.cons (.name "x" ⟨1, 5⟩) .nil) ⟨1, 0⟩)
    (.cons .eq (.call "that" (.cons (.name "y" ⟨1, 16⟩) .nil) ⟨1, 11⟩) .nil) ⟨1, 0⟩

/-- Evaluation context for `1 + 3 - 4`. -/
def c9ctx : EvalCtx := { expression := ["1 + 3 - 4"], locals := [], globals := [] }

/-- AST of `1 + 3 - 4` ( `(1 + 3) - 4` ) with its source positions. -/
def c9expr : Expr :=
  .binop (.binop (.num 1 ⟨1, 0⟩) .add (.num 3 ⟨1, 4⟩) ⟨1, 0⟩) .sub (.num 4 ⟨1, 8⟩) ⟨1, 0⟩

/- ## Claim theorems -/

/-- C1: counterexample.  For the chained comparison `3 > 2 > 1` the code's
evaluator feeds the first pairwise result `True` in as the left input of
the second comparison (so the second comparison is `True > 1`, i.e.
`1 > 1`, false) and returns the fold `False`; the claim's semantics —
left input of the k-th comparison is the (k-1)-th comparator's value,
pairwise results ANDed — yields `True` on the same input.  The recorded
wrapped results `True` then `False` exhibit the fold. -/
theorem c1_counterexample :
    visit c1ctx c1expr ⟨[], []⟩ =
      .ok (.bool false,
        ⟨[(.funcResult (.plain (.bool true)), ⟨1, 2⟩),
          (.funcResult (.plain (.bool false)), ⟨1, 6⟩)], []⟩)
    ∧ compareClaimSemantics (.int 3) [(.gt, .int 2), (.gt, .int 1)] = .ok true := by
  exact ⟨rfl, rfl⟩

/-- C1 (amended): for a chained comparison the evaluator evaluates the
pairwise comparisons left to right and FOLDS them — the left input of
the k-th pairwise comparison (k > 1) is the (k-1)-th comparison's
result, and the overall value is the last pairwise result, not an AND of
independent pairwise comparisons; it records the left operand and each
comparator value when non-trivial, and a wrapped result at the located
operator position for every pairwise operator.  Shown for `a < b <= c`
over arbitrary integer bindings. -/
theorem c1_amended (va vb vc : Int) :
    visit { expression := ["a < b <= c"],
            locals := [("a", .int va), ("b", .int vb), ("c", .int vc)], globals := [] }
      (.compare (.name "a" ⟨1, 0⟩)
        (.cons .lt (.name "b" ⟨1, 4⟩) (.cons .le (.name "c" ⟨1, 9⟩) .nil)) ⟨1, 0⟩)
      ⟨[], []⟩ =
    .ok (.bool (pyOrdApply .le (if decide (va < vb) then 1 else 0) vc),
      ⟨[(.val (.int va), ⟨1, 0⟩),
        (.val (.int vb), ⟨1, 4⟩),
        (.funcResult (.plain (.bool (pyOrdApply .lt va vb))), ⟨1, 2⟩),
        (.val (.int vc), ⟨1, 9⟩),
        (.funcResult (.plain (.bool (pyOrdApply .le (if decide (va < vb) then 1 else 0) vc))), ⟨1, 6⟩)],
       []⟩) := by
  rfl

/-- C2: counterexample.  Diagnosing `assert 1 and 0` does NOT record the
operands `1` and `0`: both are `ast.Num` nodes, members of `_simple`,
so `visit_BoolOp` skips them; the only records are the wrapped operator
result `0` at the located `and` position and the final assert record
`False` — no raw operand record exists at all. -/
theorem c2_counterexample :
    visitAssert c2ctx c2stmt ⟨[], []⟩ =
      .ok (false,
        ⟨[(.funcResult (.plain (.int 0)), ⟨1, 9⟩),
          (.val (.bool false), ⟨1, 0⟩)], []⟩)
    ∧ ([((.funcResult (.plain (.int 0)) : Recorded), (⟨1, 9⟩ : Pos)),
         ((.val (.bool false) : Recorded), (⟨1, 0⟩ : Pos))].all
        (fun rp => rp.1 != Recorded.val (.int 1) && rp.1 != Recorded.val (.int 0))) = true := by
  exact ⟨rfl, by decide⟩

/-- C2 (amended): boolean operators do evaluate ALL operands eagerly (no
short-circuit) and record one wrapped result per operator, but an
operand's own value is recorded only when the operand is non-trivial
(not in `_simple`); literal operands are skipped.  Shown for `x or y`
over arbitrary integer bindings: even when `x` is truthy (where Python
`or` would short-circuit), `y` is evaluated and its value recorded. -/
theorem c2_amended (vx vy : Int) :
    visit { expression := ["x or y"],
            locals := [("x", .int vx), ("y", .int vy)], globals := [] }
      (.boolop .or (.name "x" ⟨1, 0⟩) (.cons (.name "y" ⟨1, 5⟩) .nil) ⟨1, 0⟩)
      ⟨[], []⟩ =
    .ok (if vx != 0 then .int vx else .int vy,
      ⟨[(.val (.int vx), ⟨1, 0⟩),
        (.val (.int vy), ⟨1, 5⟩),
        (.funcResult (.plain (if vx != 0 then .int vx else .int vy)), ⟨1, 2⟩)],
       []⟩) := by
  rfl

/-- C6: counterexample.  Replaying a call to an exhausted Value Capture
Cell yields Python `None` — not the string sentinel `"unknown"` the
claim names — and records `FuncResult(None)` (rendered `= None`). -/
theorem c6_counterexample :
    visit c6ctx (.call "that" .nil ⟨1, 0⟩) ⟨[], [[]]⟩
      = .ok (PyVal.none, ⟨[(.funcResult (.plain PyVal.none), ⟨1, 0⟩)], [[]]⟩)
    ∧ PyVal.none ≠ PyVal.str "unknown"
    ∧ saferepr (.funcResult (.plain PyVal.none)) = "= None" := by
  exact ⟨rfl, by decide, rfl⟩

/-- C6 (amended): when diagnostic replay invokes a Value Capture Cell more
times than values were captured, the call yields the sentinel `None`
(rather than failing), bypasses argument evaluation, and records
`FuncResult(None)` as the call's Evaluation Record at the call's
position — for any arguments, prior records and position. -/
theorem c6_amended (args : ExprList) (pos : Pos) (ns : List (Recorded × Pos)) :
    visit c6ctx (.call "that" args pos) ⟨ns, [[]]⟩
      = .ok (PyVal.none, ⟨ns ++ [(.funcResult (.plain PyVal.none), pos)], [[]]⟩) := by
  rfl

/-- C7: a Value Capture Cell records each passed value in order and
returns it untouched (`values.__call__`), and diagnostic replay
dequeues the captured values strictly FIFO: replaying
`that(x) == that(y)` after the cell captured `a` then `b` makes the
first call pop `a` and the second pop `b` (arguments are not
re-evaluated), recording them in that order and leaving the stack
empty. -/
theorem c7_fifo (a b : PyVal) (vs : List PyVal) :
    valuesCall vs a = (vs ++ [a], a)
    ∧ (valuesCall ((valuesCall [] a).1) b).1 = [a, b]
    ∧ visit c7ctx c7expr ⟨[], [[a, b]]⟩
      = .ok (.bool (pyEq a b),
          ⟨[(.funcResult (.plain a), ⟨1, 0⟩),
            (.funcResult (.plain b), ⟨1, 11⟩),
            (.funcResult (pyDiff .eq (.bool (pyEq a b)) a b), ⟨1, 8⟩)],
           [[]]⟩) := by
  exact ⟨rfl, rfl, rfl⟩

/-- C3: counterexample.  When a NON-assertion exception escapes the
collector body while soft failures have already been collected,
`errors.__exit__` returns early: the aggregate is never raised and the
collected failure is dropped (only the foreign exception propagates) —
contradicting "collected soft failures are never silently dropped,
regardless of what exception (if any) escapes the collector body". -/
theorem c3_counterexample :
    errorsExit (fun d => { sampleErr with desc := d }) { errors := [sampleWrapped] }
        (some .otherException)
      = ({ errors := [sampleWrapped] }, .propagate)
    ∧ ({ errors := [sampleWrapped] } : Collector).errors ≠ [] := by
  exact ⟨rfl, by decide⟩

/-- C3 (amended): on a clean scope exit the collector raises exactly one
aggregate failure when diagnostics were collected (silent otherwise),
and the aggregate message joins the collected diagnostics' rendered
messages, in collection order, separated by
"as well as the following assertion"; the never-dropped guarantee holds
only when no non-assertion exception (and no already-wrapped assertion
failure) escapes the collector body. -/
theorem c3_amended (mk : Option String → ErrCtx) (c : Collector) (e1 e2 : ErrCtx) :
    (c.errors ≠ [] → errorsExit mk c Option.none = (c, .raiseAggregate))
    ∧ (c.errors = [] → errorsExit mk c Option.none = (c, .silent))
    ∧ errorsStr { errors := [.assertionError [.errObj e1], .assertionError [.errObj e2]] }
        = generate_message { e1 with
            expressionSectionOn := true
            descriptionSectionOn := true
            valuesSectionOn := true
            whereSectionOn := true }
          ++ "\n\nas well as the following assertion\n\n"
          ++ generate_message { e2 with
            expressionSectionOn := true
            descriptionSectionOn := true
            valuesSectionOn := true
            whereSectionOn := true } := by
  refine ⟨?_, ?_, ?_⟩
  · intro h
    cases hc : c.errors with
    | nil => exact absurd hc h
    | cons x xs => simp [errorsExit, hc]
  · intro h
    simp [errorsExit, h]
  · rfl

/-- C3: witness for the amended theorem. -/
theorem c3_witness :
    errorsExit (fun _ => sampleErr) { errors := [sampleWrapped] } Option.none
      = ({ errors := [sampleWrapped] }, .raiseAggregate)
    ∧ errorsExit (fun _ => sampleErr) { errors := [] } Option.none
      = ({ errors := [] }, .silent) :=
  ⟨(c3_amended (fun _ => sampleErr) { errors := [sampleWrapped] } sampleErr sampleErr).1
      (by decide),
   (c3_amended (fun _ => sampleErr) { errors := [] } sampleErr sampleErr).2.1 rfl⟩

/-- C4: counterexample.  A soft-assertion scope exiting on an
AssertionError whose payload ALREADY carries a diagnostic does not
append it to the collector and does not suppress it (`__exit__` returns
`None` before wrapping), contradicting the claim that such a failure is
appended (reusing the attached diagnostic) and suppressed. -/
theorem c4_counterexample :
    softerrorExit (fun d => { sampleErr with desc := d }) []
        (some (.assertionError [.errObj sampleErr]))
      = ([], false) := by
  exact rfl

/-- C4 (amended): a soft-assertion scope wraps an UNWRAPPED assertion
failure into a diagnostic (description taken from the argument when
present), appends it, and suppresses the exception; an assertion
failure already carrying a diagnostic propagates unsuppressed and is
NOT appended; any other exception kind propagates unsuppressed with
nothing appended. -/
theorem c4_amended (mk : Option String → ErrCtx) (errs : List PyException)
    (e : ErrCtx) (rest : List ExcArg) (s : String) :
    softerrorExit mk errs (some (.assertionError []))
      = (errs ++ [.assertionError [.errObj (mk Option.none)]], true)
    ∧ softerrorExit mk errs (some (.assertionError [.strMsg s]))
      = (errs ++ [.assertionError [.errObj (mk (some s))]], true)
    ∧ softerrorExit mk errs (some (.assertionError (.errObj e :: rest))) = (errs, false)
    ∧ softerrorExit mk errs (some .otherException) = (errs, false)
    ∧ softerrorExit mk errs Option.none = (errs, false) := by
  exact ⟨rfl, rfl, rfl, rfl, rfl⟩

/-- C5: counterexample.  For a two-line Expression Text with a single
record on line 1, the code's Values section reprints BOTH lines (the
caret line is inserted after the matching one), while the claim's
only-the-matching-line rendering omits line `b`: the two renderings
differ. -/
theorem c5_counterexample :
    generate_values_section c5err = "\n\nAssertion values\n  a\n  ^ is 5\n  b"
    ∧ values_section_claimed c5err = "\n\nAssertion values\n  a\n  ^ is 5"
    ∧ generate_values_section c5err ≠ values_section_claimed c5err := by
  exact ⟨rfl, rfl, by decide⟩

/-- C5 (amended): for every Evaluation Record the Values section reprints
ALL lines of the Expression Text, inserting after the line whose number
matches the record's position the caret line — spaces up to the
record's column, a caret, and "is " plus the safe representation; when
the record's column offset is negative the caret is aligned to that
line's natural indentation instead. -/
theorem c5_amended (l1 l2 : String) (r : Recorded) (c : Nat) (l : String) (r2 : Recorded) :
    generate_values_section
        { desc := Option.none, expression := some [l1, l2],
          nodes := [(r, ⟨1, (c : Int)⟩)], filename := "", lineno := 0, function := "",
          codeContext := false, fileLines := [] }
      = "\n\nAssertion values" ++ ("" ++ "\n  " ++ l1 ++ "\n  "
          ++ spaces ((c : Int)).toNat ++ "^ is " ++ saferepr r ++ "\n  " ++ l2)
    ∧ generate_values_section
        { desc := Option.none, expression := some [l],
          nodes := [(r2, ⟨1, -1⟩)], filename := "", lineno := 0, function := "",
          codeContext := false, fileLines := [] }
      = "\n\nAssertion values" ++ ("" ++ "\n  " ++ l ++ "\n  "
          ++ spaces ((strLen l : Int) - (strLen (pyLstrip l) : Int)).toNat
          ++ "^ is " ++ saferepr r2) := by
  constructor
  · have hc : ¬ ((c : Int) < 0) := by omega
    have he : enumerate1 [l1, l2] = [(1, l1), (2, l2)] := rfl
    simp [generate_values_section, valuesRecordBlock, he, hc]
  · rfl

/-- C8: counterexample.  The gate can pass while the attached diff is
EMPTY: comparing the strings `"a\n"` and `"a"` (unequal, both str, type
compatible, result falsy) splits both into the same line list `["a"]`,
so the unified diff is empty — the structural-diff helper attaches an
empty diff, contradicting the claim that only a non-empty diff is ever
attached. -/
theorem c8_counterexample :
    pyDiff .eq (.bool false) (.str "a\n") (.str "a") = .diffed (.bool false) "" := by
  exact rfl

/-- C8 (amended): the structural-diff helper returns the comparison result
unchanged unless the operator is equality, the result is falsy, both
operands are diffable kinds and the right is type-compatible with the
left; in that case a unified zero-context line diff of the printable
forms (header stripped) is attached — non-empty whenever the printable
line lists differ (for example for the unequal lists `[1,2,3]` and
`[1,1,3]`), but possibly empty when the printable forms coincide;
unequal ints attach nothing. -/
theorem c8_amended (op : CmpOp) (res l r : PyVal) :
    (op ≠ .eq → pyDiff op res l r = .plain res)
    ∧ (pyTruthy res = true → pyDiff op res l r = .plain res)
    ∧ (isDiffType l = false → pyDiff op res l r = .plain res)
    ∧ (sameDiffKind l r = false → pyDiff op res l r = .plain res)
    ∧ pyDiff .eq (.bool false) (.list (PyList.ofList [.int 1, .int 2, .int 3]))
        (.list (PyList.ofList [.int 1, .int 1, .int 3]))
        = .diffed (.bool false) "@@ -1 +1 @@\n-[1, 2, 3]\n+[1, 1, 3]"
    ∧ ("@@ -1 +1 @@\n-[1, 2, 3]\n+[1, 1, 3]" : String) ≠ ""
    ∧ pyDiff .eq (.bool false) (.int 1) (.int 2) = .plain (.bool false) := by
  refine ⟨?_, ?_, ?_, ?_, by decide, by decide, by decide⟩
  · intro h
    have hb : (op != CmpOp.eq) = true := by
      cases op <;> simp_all
    simp [pyDiff, hb]
  · intro h
    simp [pyDiff, h]
  · intro h
    simp [pyDiff, h]
  · intro h
    simp [pyDiff, h]

/-- C8: witness for the amended theorem. -/
theorem c8_witness :
    pyDiff .lt (.bool false) (.int 1) (.int 2) = .plain (.bool false)
    ∧ pyDiff .eq (.bool true) (.int 1) (.int 1) = .plain (.bool true)
    ∧ pyDiff .eq (.bool false) (.int 3) (.str "x") = .plain (.bool false)
    ∧ pyDiff .eq (.bool false) (.str "x") (.list .nil) = .plain (.bool false) :=
  ⟨(c8_amended .lt (.bool false) (.int 1) (.int 2)).1 (by decide),
   (c8_amended .eq (.bool true) (.int 1) (.int 1)).2.1 (by decide),
   (c8_amended .eq (.bool false) (.int 3) (.str "x")).2.2.1 (by decide),
   (c8_amended .eq (.bool false) (.str "x") (.list .nil)).2.2.2.1 (by decide)⟩

/-- If the operator symbol occurs in none of the scanned lines, the
reverse scan of `_find_operator` falls through to `(1, -1)`. -/
theorem findOpScan_not_found (opSym : String) :
    ∀ L : List (Nat × String), (∀ p ∈ L, strRfind p.2 opSym < 0) →
      findOpScan opSym L = (1, -1) := by
  intro L
  induction L with
  | nil => intro _; rfl
  | cons p rest ih =>
    intro h
    have hp : strRfind p.2 opSym < 0 := h p (List.mem_cons_self p rest)
    have hrest : ∀ q ∈ rest, strRfind q.2 opSym < 0 :=
      fun q hq => h q (List.mem_cons_of_mem p hq)
    cases p with
    | mk n line =>
      simp only [findOpScan]
      rw [if_neg (Int.not_le.mpr hp)]
      exact ih hrest

/-- An entry of `enumerate(lines, 1)` carries a member of `lines`. -/
theorem mem_enumerate1_snd (p : Nat × String) (L : List String)
    (h : p ∈ enumerate1 L) : p.2 ∈ L := by
  rcases List.mem_map.mp h with ⟨q, hq, hqe⟩
  obtain ⟨i, s⟩ := q
  rw [← hqe]
  exact (List.of_mem_zip hq).2

/-- C9 (confirmed): operator-position lookup scans the prepared line slice
(cut at the right operand's column, trailing opening brackets stripped)
in reverse for the last occurrence of the operator's symbol, and
returns `(1, -1)` whenever the symbol occurs nowhere in the prepared
lines; and in `1 + 3 - 4` each operator's wrapped result is recorded at
its own located column — `+` at column 2 and `-` at column 6, not
collapsed to one position. -/
theorem c9_operator_lookup (expression : List String) (opSym : String) (lineno : Nat) (col : Int)
    (h : ∀ l ∈ findOperatorLines expression lineno col, strRfind l opSym < 0) :
    find_operator expression opSym lineno col = (1, -1)
    ∧ visit c9ctx c9expr ⟨[], []⟩
      = .ok (.int 0,
          ⟨[(.funcResult (.plain (.int 4)), ⟨1, 2⟩),
            (.funcResult (.plain (.int 0)), ⟨1, 6⟩)], []⟩) := by
  constructor
  · simp only [find_operator]
    apply findOpScan_not_found
    intro p hp
    have hmem : p ∈ enumerate1 (findOperatorLines expression lineno col) :=
      (List.mem_reverse).mp hp
    exact h p.2 (mem_enumerate1_snd p _ hmem)
  · rfl

/-- C9: witness for the lookup theorem. -/
theorem c9_witness : find_operator ["abc"] "+" 1 2 = (1, -1) :=
  (c9_operator_lookup ["abc"] "+" 1 2 (by decide)).1

/-- If the parse oracle rejects every span, the locating loop never
breaks: no AST is produced, whatever the fuel and accumulators. -/
theorem locateLoop_none (parse : String → Option Stmt) (src : List String)
    (h : ∀ s, parse s = Option.none) :
    ∀ (k : Nat) (acc lastText : String),
      (locateLoop parse src k acc lastText).2 = Option.none := by
  intro k
  induction k with
  | zero => intro acc lastText; rfl
  | succ i ih =>
    intro acc lastText
    simp only [locateLoop, h]
    exact ih _ _

/-- C10 (confirmed): when no trailing span of source lines parses as a
statement, expression re-evaluation is skipped — the evaluator returns
an empty Evaluation Record list — and diagnostic construction still
succeeds: any diagnostic with no records renders an empty Values
section, so the generated message carries no per-value annotations. -/
theorem c10_graceful_degradation (parse : String → Option Stmt)
    (locals globals : List (String × PyVal)) (cells : List (List PyVal))
    (sourcelines : List String) (startline lineno : Nat)
    (desc : Option String) (filename functionName : String) (fileLines : List String)
    (h : ∀ s, parse s = Option.none) :
    (∃ lines, assertEvalRun parse locals globals cells sourcelines startline lineno
        = .ok (lines, []))
    ∧ (∀ e : ErrCtx, e.nodes = [] → generate_values_section e = "")
    ∧ (∃ lines, errorGenerate parse locals globals cells sourcelines startline lineno
        desc filename functionName true fileLines
        = .ok (generate_message
            { desc := desc, expression := some lines, nodes := [],
              filename := filename, lineno := lineno, function := functionName,
              codeContext := true, fileLines := fileLines })) := by
  have hr := locateLoop_none parse sourcelines h (lineno - startline + 1) "" ""
  refine ⟨⟨strSplitNl (locateLoop parse sourcelines (lineno - startline + 1) "" "").1, ?_⟩,
          ?_, ⟨strSplitNl (locateLoop parse sourcelines (lineno - startline + 1) "" "").1, ?_⟩⟩
  · simp only [assertEvalRun]
    rw [hr]
  · intro e he
    simp [generate_values_section, he]
  · simp only [errorGenerate, assertEvalRun]
    rw [hr]
    rfl

/-- C10: witness. -/
theorem c10_witness :
    (∃ lines, assertEvalRun (fun _ => Option.none) [] [] [] ["assert x\n"] 1 1
        = .ok (lines, []))
    ∧ (∀ e : ErrCtx, e.nodes = [] → generate_values_section e = "")
    ∧ (∃ lines, errorGenerate (fun _ => Option.none) [] [] [] ["assert x\n"] 1 1
        Option.none "t.py" "f" true []
        = .ok (generate_message
            { desc := Option.none, expression := some lines, nodes := [],
              filename := "t.py", lineno := 1, function := "f",
              codeContext := true, fileLines := [] })) :=
  c10_graceful_degradation (fun _ => Option.none) [] [] [] ["assert x\n"] 1 1
    Option.none "t.py" "f" [] (fun _ => rfl)
